import Mathlib

/-!
Formal model of the NexusFlow Gatekeeper "Healer Protocol".

The definitions below are a shallow embedding of the client-side state store
(`handleReliableMessage`, `retryPendingMessages`, `cleanupAcknowledgedMessages`,
the chaos branches of `sendReliableMessageInternal`), the server-side message
store (`getPendingForRetry`), the relay's `message:send` admission handler
(`validateMessage`), and the vector-clock library (`compareClocks`,
`happenedBefore`).

Modelling conventions:
- JavaScript `Map` objects are association lists `List (String × α)`;
  `Map.get` is the first match, `Map.set` replaces in place or appends,
  matching insertion-order iteration.
- JavaScript `Set` objects of strings are `List String` with append-on-add
  (the code only adds an id after checking it is absent, so no duplicates
  arise) and decidable membership.
- `Date.now()` timestamps are `Int` parameters threaded explicitly.
- `Math.random()` rolls are explicit parameters (a value per call site, or a
  per-message-id oracle for the retry loop, which draws one roll per pending
  entry it reaches); real rolls always lie in [0, 1).
- Fractional numbers (chaos rates, latency bounds, the applied-id timestamp
  heuristic) are rationals; the concrete instances evaluated in this file
  are far from comparison boundaries, so rational arithmetic agrees with the
  source's float arithmetic on them.
-/

-- ============================================
-- Data model (transport/index.ts and store.ts)
-- ============================================

inductive NodeState
  | normal
  | warning
  | emergency
deriving DecidableEq, Repr

structure Position where
  x : Int
  y : Int
deriving DecidableEq, Repr

structure RoboticNode where
  id : String
  label : String
  pos : Position
  state : NodeState
deriving DecidableEq, Repr

/-- The body of a `ReliableMessage`: the `type` discriminant together with the
payload shape that the store's `switch` casts it to.  The `unknown`
constructor stands for any `type` string outside the three handled cases
(the `default` branch of the switch). -/
inductive MsgBody
  | nodeStateChange (nodeId : String) (state : NodeState)
  | stateSync (nodes : List RoboticNode)
  | acknowledgement (messageId : String)
  | unknown
deriving DecidableEq, Repr

structure ReliableMessage where
  id : String
  body : MsgBody
  timestamp : Int
  senderId : String
  attempts : Nat
  maxAttempts : Nat
deriving DecidableEq, Repr

structure PendingMessage where
  message : ReliableMessage
  acknowledged : Bool
  lastAttempt : Int
deriving DecidableEq, Repr

structure Metrics where
  messagesSent : Nat
  messagesReceived : Nat
  acksReceived : Nat
  retries : Nat
  lastLatency : Int
deriving DecidableEq, Repr

structure ChaosConfig where
  packetLossRate : ℚ
  minLatency : ℚ
  maxLatency : ℚ
deriving DecidableEq, Repr

structure NexusStore where
  nodes : List RoboticNode
  pendingMessages : List (String × PendingMessage)
  appliedMessageIds : List String
  metrics : Metrics
  chaosConfig : ChaosConfig
deriving DecidableEq, Repr

-- Constants from store.ts
def ACK_TIMEOUT_MS : Int := 300
def MAX_RETRY_ATTEMPTS : Nat := 5
def CLEANUP_DELAY_MS : Int := 5000

-- ============================================
-- Map helpers (JS Map on string keys)
-- ============================================

def mapGet {α : Type} (m : List (String × α)) (k : String) : Option α :=
  (m.find? (fun e => e.1 = k)).map Prod.snd

/-- `Map.set`: replace the entry for the key in place (a JS `Map` holds at
most one entry per key), keeping its insertion position, or append a new
entry at the end. -/
def mapSet {α : Type} (m : List (String × α)) (k : String) (v : α) : List (String × α) :=
  match m with
  | [] => [(k, v)]
  | e :: rest => if e.1 = k then (k, v) :: rest else e :: mapSet rest k v

-- ============================================
-- handleReliableMessage (store.ts lines 184-261)
-- ============================================

/-- Result of one `handleReliableMessage` call: the updated store, the list of
message ids for which `sendAck(id, clientId)` was invoked, and the boolean
return value. -/
structure HandleResult where
  store : NexusStore
  acksSent : List String
  handled : Bool
deriving DecidableEq, Repr

def handleReliableMessage (clientId : String) (now : Int) (s : NexusStore)
    (m : ReliableMessage) : HandleResult :=
  -- Check if already applied (duplicate detection)
  if m.id ∈ s.appliedMessageIds then
    { store := s
      acksSent := if m.senderId ≠ clientId then [m.id] else []
      handled := true }
  -- Ignore own messages
  else if m.senderId = clientId then
    { store := s, acksSent := [], handled := false }
  else
    -- Update RX metrics, then dispatch on the message type
    let s1 : NexusStore :=
      { s with metrics := { s.metrics with messagesReceived := s.metrics.messagesReceived + 1 } }
    match m.body with
    | .nodeStateChange nodeId st =>
      { store :=
          { s1 with
            nodes := s1.nodes.map (fun n => if n.id = nodeId then { n with state := st } else n)
            appliedMessageIds := s1.appliedMessageIds ++ [m.id] }
        acksSent := []
        handled := true }
    | .stateSync nodes =>
      { store :=
          { s1 with
            nodes := nodes
            appliedMessageIds := s1.appliedMessageIds ++ [m.id] }
        acksSent := []
        handled := true }
    | .acknowledgement originalId =>
      match mapGet s1.pendingMessages originalId with
      | some pending =>
        let pending1 := { pending with acknowledged := true }
        let latency := now - pending1.lastAttempt
        { store :=
            { s1 with
              pendingMessages := mapSet s1.pendingMessages originalId pending1
              metrics :=
                { s1.metrics with
                  acksReceived := s1.metrics.acksReceived + 1
                  lastLatency := latency } }
          acksSent := []
          handled := true }
      | none =>
        { store := s1, acksSent := [], handled := true }
    | .unknown =>
      { store := s1, acksSent := [], handled := false }

-- ============================================
-- retryPendingMessages (store.ts lines 283-336)
-- ============================================

/-- The decision the retry loop takes for one pending entry, mirroring the
branch structure of the source `forEach` body. -/
inductive RetryAction
  | skip
  | giveUp
  | chaosDrop
  | retransmit (m : ReliableMessage)
deriving DecidableEq, Repr

def retryAction (chaos : ChaosConfig) (now : Int) (roll : String → ℚ)
    (msgId : String) (p : PendingMessage) : RetryAction :=
  if p.acknowledged then .skip
  else if now - p.lastAttempt < ACK_TIMEOUT_MS then .skip
  else if MAX_RETRY_ATTEMPTS ≤ p.message.attempts then .giveUp
  else if 0 < chaos.packetLossRate ∧ roll msgId < chaos.packetLossRate then .chaosDrop
  else .retransmit { p.message with attempts := p.message.attempts + 1, timestamp := now }

def applyRetryAction (now : Int) (p : PendingMessage) : RetryAction → PendingMessage
  | .skip => p
  | .giveUp => { p with acknowledged := true }
  | .chaosDrop => { p with lastAttempt := now }
  | .retransmit m => { p with message := m, lastAttempt := now }

def retrySent (chaos : ChaosConfig) (now : Int) (roll : String → ℚ)
    (pending : List (String × PendingMessage)) : List ReliableMessage :=
  pending.filterMap (fun e =>
    match retryAction chaos now roll e.1 e.2 with
    | .retransmit m => some m
    | _ => none)

/-- Result of one `retryPendingMessages` tick: the updated store and the
messages handed to `sendViaTransport`. -/
structure RetryResult where
  store : NexusStore
  sent : List ReliableMessage
deriving Repr

def retryPendingMessages (now : Int) (roll : String → ℚ) (s : NexusStore) : RetryResult :=
  let sent := retrySent s.chaosConfig now roll s.pendingMessages
  { store :=
      { s with
        pendingMessages := s.pendingMessages.map (fun e =>
          (e.1, applyRetryAction now e.2 (retryAction s.chaosConfig now roll e.1 e.2)))
        metrics := { s.metrics with retries := s.metrics.retries + sent.length } }
    sent := sent }

/-- Run a sequence of retry ticks, each with its own `Date.now()` value and
roll oracle; also collects everything transmitted across the run. -/
def runRetryTicks (ticks : List (Int × (String → ℚ))) (s : NexusStore) :
    NexusStore × List ReliableMessage :=
  match ticks with
  | [] => (s, [])
  | tk :: rest =>
    let r := retryPendingMessages tk.1 tk.2 s
    let tl := runRetryTicks rest r.store
    (tl.1, r.sent ++ tl.2)

-- ============================================
-- cleanupAcknowledgedMessages (store.ts lines 341-384)
-- ============================================

def hexDigitVal (c : Char) : Option Nat :=
  if '0' ≤ c ∧ c ≤ '9' then some (c.toNat - '0'.toNat)
  else if 'a' ≤ c ∧ c ≤ 'f' then some (c.toNat - 'a'.toNat + 10)
  else if 'A' ≤ c ∧ c ≤ 'F' then some (c.toNat - 'A'.toNat + 10)
  else none

/-- `parseInt(s, 16)` over the characters of `s`: parse the longest
hex-digit run at the front; `none` models the `NaN` result when no digit is
parsed. -/
def parseIntHex (cs : List Char) : Option Nat :=
  let digits := cs.takeWhile (fun c => (hexDigitVal c).isSome)
  if digits.isEmpty then none
  else some (digits.foldl (fun acc c => acc * 16 + ((hexDigitVal c).getD 0)) 0)

/-- The applied-id retention test: `parseInt(id.substring(0, 8), 16) *
4294966.296` is the derived pseudo-timestamp; an id is kept when
`now - timestamp < CLEANUP_DELAY_MS * 1000`.  A `NaN` timestamp makes the
comparison false, discarding the id. -/
def appliedKeep (now : Int) (msgId : String) : Bool :=
  match parseIntHex (msgId.data.take 8) with
  | none => false
  | some t => (now : ℚ) - (t : ℚ) * (4294966296 / 1000) < (CLEANUP_DELAY_MS : ℚ) * 1000

def pendingKeep (now : Int) (p : PendingMessage) : Bool :=
  !p.acknowledged || (now - p.lastAttempt < CLEANUP_DELAY_MS)

/-- `cleanupAcknowledgedMessages`: when nothing is cleaned the source skips
its `set` call, but the rebuilt containers then equal the originals, so the
unconditional filter below is the same state transformation. -/
def cleanupAcknowledgedMessages (now : Int) (s : NexusStore) : NexusStore :=
  { s with
    pendingMessages := s.pendingMessages.filter (fun e => pendingKeep now e.2)
    appliedMessageIds := s.appliedMessageIds.filter (fun msgId => appliedKeep now msgId) }

-- ============================================
-- Chaos policy (store.ts sendReliableMessageInternal lines 465-506
-- and the chaos branch of retryPendingMessages lines 303-317)
-- ============================================

/-- What happens to one transmission attempt after the chaos policy runs. -/
inductive SendOutcome
  | dropped
  | delayed (latency : ℚ)
  | immediate
deriving DecidableEq, Repr

/-- Chaos policy on the original send path (`sendReliableMessageInternal`):
first the packet-loss roll, then — only if not dropped — the latency branch
`minLatency + Math.random() * (maxLatency - minLatency)` when a latency
range is configured. -/
def sendChaosOutcome (chaos : ChaosConfig) (dropRoll latRoll : ℚ) : SendOutcome :=
  if 0 < chaos.packetLossRate ∧ dropRoll < chaos.packetLossRate then .dropped
  else if 0 < chaos.minLatency ∨ 0 < chaos.maxLatency then
    .delayed (chaos.minLatency + latRoll * (chaos.maxLatency - chaos.minLatency))
  else .immediate

/-- Chaos policy on the client retry path (`retryPendingMessages`): the same
packet-loss roll, but a surviving retry goes straight to
`sendViaTransport` — there is no latency branch on this path. -/
def retryChaosOutcome (chaos : ChaosConfig) (dropRoll : ℚ) : SendOutcome :=
  if 0 < chaos.packetLossRate ∧ dropRoll < chaos.packetLossRate then .dropped
  else .immediate

-- ============================================
-- Server message store (src/server/messageStore.ts)
-- ============================================

structure QueuedMessage where
  id : String
  type : String
  payload : String
  timestamp : Int
  senderId : String
  attempts : Nat
  maxAttempts : Nat
  acknowledged : Bool
deriving DecidableEq, Repr

/-- Result of one `getPendingForRetry` scan: the returned retry list, the
`message:failed` events emitted while scanning, and the pending store as the
method leaves it (the method only reads the map — it never deletes). -/
structure RetryScan where
  toRetry : List QueuedMessage
  failedEvents : List (String × String)
  store : List (String × QueuedMessage)
deriving DecidableEq, Repr

def getPendingForRetry (now ackTimeoutMs : Int)
    (pending : List (String × QueuedMessage)) : RetryScan :=
  { toRetry := pending.filterMap (fun e =>
      if e.2.acknowledged then none
      else if e.2.maxAttempts ≤ e.2.attempts then none
      else if ackTimeoutMs ≤ now - e.2.timestamp then some e.2
      else none)
    failedEvents := pending.filterMap (fun e =>
      if e.2.acknowledged then none
      else if e.2.maxAttempts ≤ e.2.attempts then some (e.2.id, "Max attempts reached")
      else none)
    store := pending }

def incrementAttempts (pending : List (String × QueuedMessage)) (msgId : String) :
    List (String × QueuedMessage) :=
  match mapGet pending msgId with
  | some m => mapSet pending msgId { m with attempts := m.attempts + 1 }
  | none => pending

-- ============================================
-- Relay admission (server validateMessage and the message:send handler)
-- ============================================

/-- A JavaScript field value as far as `validateMessage` inspects it: a
string, or some present non-string value. -/
inductive JField
  | jstr (s : String)
  | jother
deriving DecidableEq, Repr

/-- The inbound payload as a record of the fields `validateMessage` reads;
`none` on a field models `undefined`.  A `none` at the top level models a
payload that is `null`/not an object. -/
structure RawMessage where
  id : Option JField
  type : Option JField
  senderId : Option JField
deriving DecidableEq, Repr

def isHexDigit (c : Char) : Bool :=
  ('0' ≤ c ∧ c ≤ '9') ∨ ('a' ≤ c ∧ c ≤ 'f') ∨ ('A' ≤ c ∧ c ≤ 'F')

/-- Split a character list at every dash (the grouping the UUID regex
imposes); splitting an empty list yields one empty group, like
`"".split("-")`. -/
def splitOnDash (cs : List Char) : List (List Char) :=
  match cs with
  | [] => [[]]
  | c :: rest =>
    match splitOnDash rest with
    | [] => [[c]]
    | g :: gs => if c = '-' then [] :: g :: gs else (c :: g) :: gs

/-- The anchored UUID regex
`^[0-9a-f]\x7b8\x7d-[0-9a-f]\x7b4\x7d-[0-9a-f]\x7b4\x7d-[0-9a-f]\x7b4\x7d-[0-9a-f]\x7b12\x7d$`
with the `i` flag: exactly five dash-separated groups of hex digits with
lengths 8-4-4-4-12. -/
def isUuidFormat (s : String) : Bool :=
  let parts := splitOnDash s.data
  (parts.map List.length = [8, 4, 4, 4, 12] : Bool) &&
    parts.all (fun p => p.all isHexDigit)

def validateMessage (data : Option RawMessage) : Bool :=
  match data with
  | none => false
  | some msg =>
    match msg.id, msg.type, msg.senderId with
    | some (.jstr i), some (.jstr t), some (.jstr sd) =>
      (i ≠ "" : Bool) && (t ≠ "" : Bool) && (sd ≠ "" : Bool) && isUuidFormat i
    | _, _, _ => false

def msgIdString (m : RawMessage) : String :=
  match m.id with
  | some (.jstr s) => s
  | _ => ""

/-- Observable effects of one `message:send` handler invocation: `error`
events emitted to the sender, messages added to the message store, messages
broadcast to the other peers, and `message:ack` events back to the sender. -/
structure MessageSendResult where
  errors : List String
  added : List RawMessage
  broadcast : List RawMessage
  acks : List String
deriving DecidableEq, Repr

/-- The `message:send` handler: rate-limit check, then validation, then
store/broadcast/ack.  `rateOk` is the result of `checkRateLimit(clientId)`. -/
def handleMessageSend (rateOk : Bool) (data : Option RawMessage) : MessageSendResult :=
  if !rateOk then
    { errors := ["Rate limit exceeded"], added := [], broadcast := [], acks := [] }
  else if !validateMessage data then
    { errors := ["Invalid message format"], added := [], broadcast := [], acks := [] }
  else
    match data with
    | some msg => { errors := [], added := [msg], broadcast := [msg], acks := [msgIdString msg] }
    | none => { errors := ["Invalid message format"], added := [], broadcast := [], acks := [] }

-- ============================================
-- Vector clocks (vectorClock.ts)
-- ============================================

/-- A vector clock as an association list; `clock[clientId] || 0` is
`vcLookup`. -/
def VClock : Type := List (String × Nat)

def vcLookup (clock : VClock) (clientId : String) : Nat :=
  ((List.find? (fun e => e.1 = clientId) clock).map Prod.snd).getD 0

def vcKeys (clock : VClock) : List String :=
  clock.map Prod.fst

/-- `new Set([...keysA, ...keysB])` iterated in insertion order: keep the
first occurrence of each key. -/
def setUnion (xs : List String) : List String :=
  xs.foldl (fun acc x => if x ∈ acc then acc else acc ++ [x]) []

inductive ClockComparison
  | equal
  | greater
  | less
  | concurrent
deriving DecidableEq, Repr

/-- `compareClocks`: the source walks the key union setting two flags; the
flag values after the walk are exactly these `any` tests (a key seen twice
sets a flag to the same value again, so duplicate keys would not matter). -/
def compareClocks (clockA clockB : VClock) : ClockComparison :=
  let ids := setUnion (vcKeys clockA ++ vcKeys clockB)
  let aGreater := ids.any (fun c => vcLookup clockB c < vcLookup clockA c)
  let bGreater := ids.any (fun c => vcLookup clockA c < vcLookup clockB c)
  if aGreater ∧ bGreater then .concurrent
  else if aGreater then .greater
  else if bGreater then .less
  else .equal

/-- `happenedBefore`, embedded faithfully with the source's control flow: the
`return false` under `a > b` sits inside a `forEach` callback, so it only
ends that iteration — the function still returns `atLeastOneLess`. -/
def happenedBefore (clockA clockB : VClock) : Bool :=
  let ids := setUnion (vcKeys clockA ++ vcKeys clockB)
  ids.foldl (fun atLeastOneLess c =>
    if vcLookup clockB c < vcLookup clockA c then atLeastOneLess
    else if vcLookup clockA c < vcLookup clockB c then true
    else atLeastOneLess) false

-- ============================================
-- Concrete fixtures (used by witnesses and counterexamples)
-- ============================================

def fxNode : RoboticNode :=
  { id := "n1", label := "Robot-Alpha", pos := { x := 100, y := 100 }, state := .normal }

def fxMetrics : Metrics :=
  { messagesSent := 0, messagesReceived := 0, acksReceived := 0, retries := 0, lastLatency := 0 }

def fxChaosOff : ChaosConfig := { packetLossRate := 0, minLatency := 0, maxLatency := 0 }

def fxChaosFull : ChaosConfig := { packetLossRate := 1, minLatency := 0, maxLatency := 0 }

def fxStoreBase : NexusStore :=
  { nodes := [fxNode], pendingMessages := [], appliedMessageIds := [],
    metrics := fxMetrics, chaosConfig := fxChaosOff }

def fxMsgX : ReliableMessage :=
  { id := "X", body := .nodeStateChange "n1" .emergency, timestamp := 0,
    senderId := "clientA", attempts := 0, maxAttempts := 5 }

/-- Scenario-B starting point: the PendingEntry registered for a freshly sent
(and chaos-dropped) STATE_CHANGE, with full packet loss configured. -/
def fxStoreFullLoss : NexusStore :=
  { fxStoreBase with
    pendingMessages := [("X", { message := fxMsgX, acknowledged := false, lastAttempt := 0 })]
    chaosConfig := fxChaosFull }

/-- A concrete `Math.random()` outcome (any value in `[0, 1)` behaves the
same under a loss rate of 1). -/
def fxZeroRoll : String → ℚ := fun _ => 0

/-- Five retry ticks, one ack-timeout apart. -/
def fxTicks5 : List (Int × (String → ℚ)) :=
  [(300, fxZeroRoll), (600, fxZeroRoll), (900, fxZeroRoll), (1200, fxZeroRoll), (1500, fxZeroRoll)]

def fxMsgT : ReliableMessage :=
  { id := "T", body := .nodeStateChange "n1" .warning, timestamp := 0,
    senderId := "me", attempts := 0, maxAttempts := 5 }

/-- A store whose pending entry for "T" is already acknowledged. -/
def fxStoreAcked : NexusStore :=
  { fxStoreBase with
    pendingMessages := [("T", { message := fxMsgT, acknowledged := true, lastAttempt := 100 })]
    metrics := { fxMetrics with acksReceived := 7 } }

def fxAckT : ReliableMessage :=
  { id := "A1", body := .acknowledgement "T", timestamp := 250,
    senderId := "peer", attempts := 0, maxAttempts := 1 }

def fxMsgUuid : ReliableMessage :=
  { id := "ffffffff-aaaa-bbbb-cccc-000000000000", body := .nodeStateChange "n1" .emergency,
    timestamp := 1000, senderId := "peer", attempts := 0, maxAttempts := 5 }

/-- A pending entry whose envelope already used up all its attempts. -/
def fxMsgMaxed : ReliableMessage :=
  { id := "M", body := .nodeStateChange "n1" .emergency, timestamp := 0,
    senderId := "me", attempts := 5, maxAttempts := 5 }

def fxStoreMaxed : NexusStore :=
  { fxStoreBase with
    pendingMessages := [("M", { message := fxMsgMaxed, acknowledged := false, lastAttempt := 0 })] }

def fxMsgSelf : ReliableMessage :=
  { id := "Z", body := .nodeStateChange "n1" .emergency, timestamp := 0,
    senderId := "me", attempts := 0, maxAttempts := 5 }

def fxBadRaw : RawMessage :=
  { id := some (.jstr "not-a-uuid"), type := some (.jstr "NODE_STATE_CHANGE"),
    senderId := some (.jstr "client-1") }

def fxQueuedDue : QueuedMessage :=
  { id := "Q1", type := "NODE_STATE_CHANGE", payload := "p", timestamp := 0,
    senderId := "clientA", attempts := 1, maxAttempts := 5, acknowledged := false }

def fxQueuedMaxed : QueuedMessage :=
  { id := "Q2", type := "NODE_STATE_CHANGE", payload := "p", timestamp := 0,
    senderId := "clientA", attempts := 5, maxAttempts := 5, acknowledged := false }

def fxQueuedStore : List (String × QueuedMessage) :=
  [("Q1", fxQueuedDue), ("Q2", fxQueuedMaxed)]

-- ============================================
-- Helper lemmas: the map model
-- ============================================

theorem mapGet_cons {α : Type} (e : String × α) (l : List (String × α)) (k : String) :
    mapGet (e :: l) k = if e.1 = k then some e.2 else mapGet l k := by
  by_cases h : e.1 = k <;> simp [mapGet, List.find?_cons, h]

theorem mapGet_mapSet_self {α : Type} (l : List (String × α)) (k : String) (v : α) :
    mapGet (mapSet l k v) k = some v := by
  induction l with
  | nil => simp [mapSet, mapGet, List.find?_cons]
  | cons e rest ih =>
    by_cases h : e.1 = k
    · simp [mapSet, h, mapGet_cons]
    · simp [mapSet, h, mapGet_cons, ih]

theorem mapGet_mapSet_ne {α : Type} (l : List (String × α)) (k k' : String) (v : α)
    (h : k' ≠ k) : mapGet (mapSet l k v) k' = mapGet l k' := by
  have hk : ¬(k = k') := fun hh => h hh.symm
  induction l with
  | nil => simp [mapSet, mapGet_cons, hk, mapGet]
  | cons e rest ih =>
    by_cases he : e.1 = k
    · simp [mapSet, he, mapGet_cons, hk]
    · simp [mapSet, he, mapGet_cons, ih]

theorem mem_of_mapGet_eq_some {α : Type} {l : List (String × α)} {k : String} {v : α}
    (h : mapGet l k = some v) : (k, v) ∈ l := by
  induction l with
  | nil => simp [mapGet] at h
  | cons e rest ih =>
    rw [mapGet_cons] at h
    by_cases he : e.1 = k
    · rw [if_pos he] at h
      have hv : e.2 = v := Option.some.inj h
      have hev : e = (k, v) := by
        obtain ⟨a, b⟩ := e
        simp only at he hv
        rw [he, hv]
      rw [← hev]
      exact List.mem_cons_self _ _
    · rw [if_neg he] at h
      exact List.mem_cons_of_mem _ (ih h)

/-- `mapGet` after re-keying map: mapping each entry to a new value computed
from its key and old value commutes with lookup. -/
theorem mapGet_map {α β : Type} (g : String → α → β) (l : List (String × α)) (k : String) :
    mapGet (l.map (fun e => (e.1, g e.1 e.2))) k = (mapGet l k).map (g k) := by
  induction l with
  | nil => simp [mapGet]
  | cons e rest ih =>
    by_cases h : e.1 = k
    · subst h
      simp [mapGet_cons]
    · simp [mapGet_cons, h, ih]

theorem nodup_keys_unique {α : Type} {l : List (String × α)} {k : String} {a b : α}
    (hnd : (l.map Prod.fst).Nodup) (ha : (k, a) ∈ l) (hb : (k, b) ∈ l) : a = b := by
  induction l with
  | nil => simp at ha
  | cons e rest ih =>
    simp only [List.map_cons, List.nodup_cons] at hnd
    rcases List.mem_cons.mp ha with ha1 | ha1 <;> rcases List.mem_cons.mp hb with hb1 | hb1
    · exact (Prod.ext_iff.mp (ha1.trans hb1.symm)).2
    · exfalso
      apply hnd.1
      rw [← ha1]
      exact List.mem_map.mpr ⟨(k, b), hb1, rfl⟩
    · exfalso
      apply hnd.1
      rw [← hb1]
      exact List.mem_map.mpr ⟨(k, a), ha1, rfl⟩
    · exact ih hnd.2 ha1 hb1

-- ============================================
-- C4: no self-application
-- ============================================

/-- Claim C4: an incoming message whose `senderId` equals the local client id
and whose id is not already applied is ignored: `handleReliableMessage`
returns `false`, sends no ACK, and leaves the node collection, the applied
set, the pending ledger — indeed the whole store — unchanged. -/
theorem no_self_application (clientId : String) (now : Int) (s : NexusStore)
    (m : ReliableMessage) (hfresh : m.id ∉ s.appliedMessageIds)
    (hself : m.senderId = clientId) :
    (handleReliableMessage clientId now s m).handled = false ∧
    (handleReliableMessage clientId now s m).store.nodes = s.nodes ∧
    (handleReliableMessage clientId now s m).store.appliedMessageIds = s.appliedMessageIds ∧
    (handleReliableMessage clientId now s m).store.pendingMessages = s.pendingMessages ∧
    (handleReliableMessage clientId now s m).store = s ∧
    (handleReliableMessage clientId now s m).acksSent = [] := by
  simp [handleReliableMessage, hfresh, hself]

theorem no_self_application_witness :
    (handleReliableMessage "me" 0 fxStoreBase fxMsgSelf).handled = false ∧
    (handleReliableMessage "me" 0 fxStoreBase fxMsgSelf).store = fxStoreBase :=
  ⟨(no_self_application "me" 0 fxStoreBase fxMsgSelf (by decide) (by decide)).1,
   (no_self_application "me" 0 fxStoreBase fxMsgSelf (by decide) (by decide)).2.2.2.2.1⟩

-- ============================================
-- C9: malformed message:send payloads are rejected at admission
-- ============================================

/-- Claim C9: an inbound `message:send` payload that fails `validateMessage`
(missing or non-string id / type / senderId, or a non-UUID id) draws an
error event back to the sender and is never added to the message store and
never broadcast to peers, whatever the rate-limit check said. -/
theorem malformed_message_rejected (rateOk : Bool) (data : Option RawMessage)
    (hbad : validateMessage data = false) :
    (handleMessageSend rateOk data).errors ≠ [] ∧
    (handleMessageSend rateOk data).added = [] ∧
    (handleMessageSend rateOk data).broadcast = [] := by
  cases rateOk <;> simp [handleMessageSend, hbad]

theorem malformed_message_rejected_witness :
    (handleMessageSend true (some fxBadRaw)).added = [] ∧
    (handleMessageSend true (some fxBadRaw)).broadcast = [] :=
  ⟨(malformed_message_rejected true (some fxBadRaw) (by decide)).2.1,
   (malformed_message_rejected true (some fxBadRaw) (by decide)).2.2⟩

-- ============================================
-- C10: happenedBefore versus compareClocks
-- ============================================

/-- Claim C10 (code bug): for the concurrent clocks `A = [p ↦ 1]` and
`B = [q ↦ 1]`, `happenedBefore A B` returns `true` while
`compareClocks A B` returns `concurrent` (not `less`), refuting the
equivalence `happenedBefore A B = true ↔ compareClocks A B = less`.  The
source's guard comment says "A cannot have happened before B", but its
`return false` only exits one `forEach` iteration. -/
theorem happenedBefore_concurrent_bug :
    happenedBefore [("p", 1)] [("q", 1)] = true ∧
    compareClocks [("p", 1)] [("q", 1)] = ClockComparison.concurrent ∧
    compareClocks [("p", 1)] [("q", 1)] ≠ ClockComparison.less := by
  refine ⟨by decide, by decide, by decide⟩

-- ============================================
-- C8: chaos policy on the send path versus the retry path
-- ============================================

/-- Claim C8 counterexample: with no packet loss configured but a latency
range of [100, 200] and mid-range rolls, the original send path delays the
transmission by 150 while the client retry path transmits immediately — the
chaos policy is not applied identically on the two paths. -/
theorem chaos_policy_paths_differ :
    sendChaosOutcome { packetLossRate := 0, minLatency := 100, maxLatency := 200 } (1/2) (1/2) =
      SendOutcome.delayed 150 ∧
    retryChaosOutcome { packetLossRate := 0, minLatency := 100, maxLatency := 200 } (1/2) =
      SendOutcome.immediate ∧
    sendChaosOutcome { packetLossRate := 0, minLatency := 100, maxLatency := 200 } (1/2) (1/2) ≠
      retryChaosOutcome { packetLossRate := 0, minLatency := 100, maxLatency := 200 } (1/2) := by
  refine ⟨?_, ?_, ?_⟩
  · norm_num [sendChaosOutcome]
  · norm_num [retryChaosOutcome]
  · norm_num [sendChaosOutcome, retryChaosOutcome]
    intro h
    exact SendOutcome.noConfusion h

/-- Claim C8 (amended): the packet-drop decision is applied identically on
the original send path and on the client retry path, and dropping excludes
delaying on both paths; but latency injection exists only on the send path —
a surviving retry is always transmitted immediately, never delayed. -/
theorem chaos_drop_identical_retry_undelayed (chaos : ChaosConfig) (dropRoll latRoll : ℚ) :
    (sendChaosOutcome chaos dropRoll latRoll = SendOutcome.dropped ↔
      retryChaosOutcome chaos dropRoll = SendOutcome.dropped) ∧
    (∀ l, retryChaosOutcome chaos dropRoll ≠ SendOutcome.delayed l) ∧
    (sendChaosOutcome chaos dropRoll latRoll = SendOutcome.dropped →
      ∀ l, sendChaosOutcome chaos dropRoll latRoll ≠ SendOutcome.delayed l) := by
  by_cases hd : 0 < chaos.packetLossRate ∧ dropRoll < chaos.packetLossRate
  · refine ⟨by simp [sendChaosOutcome, retryChaosOutcome, hd], ?_, ?_⟩
    · intro l
      simp [retryChaosOutcome, hd]
    · intro h l hl
      rw [h] at hl
      exact SendOutcome.noConfusion hl
  · constructor
    · by_cases hlat : 0 < chaos.minLatency ∨ 0 < chaos.maxLatency <;>
        simp [sendChaosOutcome, retryChaosOutcome, hd, hlat]
    · refine ⟨fun l => by simp [retryChaosOutcome, hd], fun h l hl => ?_⟩
      rw [h] at hl
      exact SendOutcome.noConfusion hl

theorem chaos_drop_identical_retry_undelayed_witness :
    retryChaosOutcome fxChaosFull 0 = SendOutcome.dropped :=
  (chaos_drop_identical_retry_undelayed fxChaosFull 0 0).1.mp (by decide)

-- ============================================
-- C1: duplicate STATE_CHANGE delivery is idempotent
-- ============================================

/-- Claim C1: a NODE_STATE_CHANGE envelope from a foreign origin whose id is
not yet applied is applied on first delivery (the node collection gets the
state transition, the call returns `true`); a second delivery of the same
envelope before any cleanup changes nothing at all — the store is returned
unchanged, an ACK for the id is re-sent, and the call returns `true`. -/
theorem state_change_duplicate_applied_once (clientId : String) (t1 t2 : Int)
    (s : NexusStore) (m : ReliableMessage) (nodeId : String) (st : NodeState)
    (hbody : m.body = MsgBody.nodeStateChange nodeId st)
    (hfor : m.senderId ≠ clientId)
    (hfresh : m.id ∉ s.appliedMessageIds) :
    (handleReliableMessage clientId t1 s m).store.nodes =
      s.nodes.map (fun n => if n.id = nodeId then { n with state := st } else n) ∧
    (handleReliableMessage clientId t1 s m).handled = true ∧
    handleReliableMessage clientId t2 (handleReliableMessage clientId t1 s m).store m =
      { store := (handleReliableMessage clientId t1 s m).store
        acksSent := [m.id]
        handled := true } := by
  have e1 : (handleReliableMessage clientId t1 s m) =
      { store := { s with
          nodes := s.nodes.map (fun n => if n.id = nodeId then { n with state := st } else n)
          appliedMessageIds := s.appliedMessageIds ++ [m.id]
          metrics := { s.metrics with messagesReceived := s.metrics.messagesReceived + 1 } }
        acksSent := []
        handled := true } := by
    simp [handleReliableMessage, hbody, hfresh, hfor]
  have hmem : m.id ∈ s.appliedMessageIds ++ [m.id] :=
    List.mem_append_right _ (List.mem_singleton_self _)
  rw [e1]
  refine ⟨rfl, rfl, ?_⟩
  simp [handleReliableMessage, hmem, hfor]

theorem state_change_duplicate_applied_once_witness :
    (handleReliableMessage "me" 100 fxStoreBase fxMsgX).handled = true :=
  (state_change_duplicate_applied_once "me" 100 200 fxStoreBase fxMsgX "n1"
    NodeState.emergency rfl (by decide) (by decide)).2.1

-- ============================================
-- C5: ACKNOWLEDGEMENT receipt
-- ============================================

/-- Claim C5 counterexample: the pending entry for "T" is already
acknowledged, yet delivering a further ACK for "T" still bumps the
`acksReceived` metric from 7 to 8 (and rewrites `lastLatency`) — the code
never checks "not yet acknowledged" before updating the ack metrics. -/
theorem duplicate_ack_metrics_counterexample :
    (mapGet fxStoreAcked.pendingMessages "T").map PendingMessage.acknowledged = some true ∧
    fxStoreAcked.metrics.acksReceived = 7 ∧
    (handleReliableMessage "me" 250 fxStoreAcked fxAckT).store.metrics.acksReceived = 8 ∧
    (handleReliableMessage "me" 250 fxStoreAcked fxAckT).store.metrics.lastLatency = 150 := by
  refine ⟨by decide, by decide, by decide, by decide⟩

/-- Claim C5 (amended): on receipt of an ACKNOWLEDGEMENT targeting id `T`
(fresh envelope id, foreign origin), if a pending entry for `T` exists the
code sets it `acknowledged = true`, computes `lastLatency = now -
lastSentAt` and bumps `acksReceived` — whenever the entry is present, even
if it was already acknowledged; if no entry exists the ACK is ignored:
pending ledger, ack metrics, nodes and applied set are unchanged (only the
`messagesReceived` counter, bumped for every fresh foreign message, moves).
The call returns `true` in both cases. -/
theorem ack_receipt_behaviour (clientId : String) (now : Int) (s : NexusStore)
    (m : ReliableMessage) (targetId : String)
    (hbody : m.body = MsgBody.acknowledgement targetId)
    (hfresh : m.id ∉ s.appliedMessageIds)
    (hfor : m.senderId ≠ clientId) :
    (∀ p, mapGet s.pendingMessages targetId = some p →
      mapGet (handleReliableMessage clientId now s m).store.pendingMessages targetId =
        some { p with acknowledged := true } ∧
      (∀ k, k ≠ targetId →
        mapGet (handleReliableMessage clientId now s m).store.pendingMessages k =
          mapGet s.pendingMessages k) ∧
      (handleReliableMessage clientId now s m).store.metrics.acksReceived =
        s.metrics.acksReceived + 1 ∧
      (handleReliableMessage clientId now s m).store.metrics.lastLatency = now - p.lastAttempt ∧
      (handleReliableMessage clientId now s m).store.nodes = s.nodes ∧
      (handleReliableMessage clientId now s m).store.appliedMessageIds = s.appliedMessageIds ∧
      (handleReliableMessage clientId now s m).handled = true) ∧
    (mapGet s.pendingMessages targetId = none →
      (handleReliableMessage clientId now s m).store.pendingMessages = s.pendingMessages ∧
      (handleReliableMessage clientId now s m).store.metrics.acksReceived =
        s.metrics.acksReceived ∧
      (handleReliableMessage clientId now s m).store.metrics.lastLatency =
        s.metrics.lastLatency ∧
      (handleReliableMessage clientId now s m).store.nodes = s.nodes ∧
      (handleReliableMessage clientId now s m).store.appliedMessageIds = s.appliedMessageIds ∧
      (handleReliableMessage clientId now s m).handled = true) := by
  constructor
  · intro p hp
    have e1 : handleReliableMessage clientId now s m =
        { store := { s with
            pendingMessages := mapSet s.pendingMessages targetId { p with acknowledged := true }
            metrics := { s.metrics with
              messagesReceived := s.metrics.messagesReceived + 1
              acksReceived := s.metrics.acksReceived + 1
              lastLatency := now - p.lastAttempt } }
          acksSent := []
          handled := true } := by
      simp [handleReliableMessage, hbody, hfresh, hfor, hp]
    rw [e1]
    exact ⟨mapGet_mapSet_self _ _ _,
      fun k hk => mapGet_mapSet_ne _ _ _ _ hk, rfl, rfl, rfl, rfl, rfl⟩
  · intro hnone
    have e1 : handleReliableMessage clientId now s m =
        { store := { s with
            metrics := { s.metrics with
              messagesReceived := s.metrics.messagesReceived + 1 } }
          acksSent := []
          handled := true } := by
      simp [handleReliableMessage, hbody, hfresh, hfor, hnone]
    rw [e1]
    exact ⟨rfl, rfl, rfl, rfl, rfl, rfl⟩

theorem ack_receipt_behaviour_witness :
    mapGet (handleReliableMessage "me" 250 fxStoreAcked fxAckT).store.pendingMessages "T" =
      some { message := fxMsgT, acknowledged := true, lastAttempt := 100 } :=
  ((ack_receipt_behaviour "me" 250 fxStoreAcked fxAckT "T" rfl (by decide) (by decide)).1
    { message := fxMsgT, acknowledged := true, lastAttempt := 100 } (by decide)).1

-- ============================================
-- C6: cleanup retention
-- ============================================

/-- Claim C6 counterexample: the id `ffffffff-aaaa-bbbb-cccc-000000000000`
is applied (enters the applied ledger) at time 1000; at `now = 10^13` —
far beyond any retention window, with no new traffic — cleanup still
retains it, because the retention test uses a pseudo-timestamp parsed from
the id's first eight hex digits (`4294967295 * 4294966.296`, far in the
future), not the id's creation time. -/
theorem applied_ledger_retention_counterexample :
    fxMsgUuid.timestamp = 1000 ∧
    (10 : Int) ^ 13 - fxMsgUuid.timestamp > CLEANUP_DELAY_MS * 1000 ∧
    fxMsgUuid.id ∈
      (handleReliableMessage "me" 1000 fxStoreBase fxMsgUuid).store.appliedMessageIds ∧
    fxMsgUuid.id ∈ (cleanupAcknowledgedMessages ((10 : Int) ^ 13)
      (handleReliableMessage "me" 1000 fxStoreBase fxMsgUuid).store).appliedMessageIds := by
  have h3 : fxMsgUuid.id ∈
      (handleReliableMessage "me" 1000 fxStoreBase fxMsgUuid).store.appliedMessageIds := by
    decide
  refine ⟨rfl, by norm_num [CLEANUP_DELAY_MS, fxMsgUuid], h3, ?_⟩
  simp only [cleanupAcknowledgedMessages, List.mem_filter]
  refine ⟨h3, ?_⟩
  simp only [appliedKeep]
  rw [show parseIntHex (fxMsgUuid.id.data.take 8) = some 4294967295 from by decide]
  norm_num [CLEANUP_DELAY_MS]

/-- Claim C6 (amended): after `cleanupAcknowledgedMessages`, the pending
ledger retains every unacknowledged entry unconditionally and retains an
acknowledged entry exactly when less than the 5000 ms grace window has
elapsed since its `lastAttempt`; the applied ledger retains an id exactly
when the `appliedKeep` test passes — a test on the pseudo-timestamp derived
from the id's first eight hex digits, not on the id's creation time — so no
bound on entry age follows for the applied ledger. -/
theorem cleanup_retention_characterization (now : Int) (s : NexusStore) :
    (∀ e : String × PendingMessage,
      e ∈ (cleanupAcknowledgedMessages now s).pendingMessages ↔
        (e ∈ s.pendingMessages ∧
          (e.2.acknowledged = false ∨ now - e.2.lastAttempt < CLEANUP_DELAY_MS))) ∧
    (∀ msgId, msgId ∈ (cleanupAcknowledgedMessages now s).appliedMessageIds ↔
      (msgId ∈ s.appliedMessageIds ∧ appliedKeep now msgId = true)) ∧
    (cleanupAcknowledgedMessages now s).nodes = s.nodes ∧
    (cleanupAcknowledgedMessages now s).metrics = s.metrics := by
  refine ⟨?_, ?_, rfl, rfl⟩
  · intro e
    simp [cleanupAcknowledgedMessages, List.mem_filter, pendingKeep, Bool.or_eq_true,
      Bool.not_eq_true', decide_eq_true_eq, and_assoc]
  · intro msgId
    simp [cleanupAcknowledgedMessages, List.mem_filter]

theorem cleanup_retention_characterization_witness :
    ("X", { message := fxMsgX, acknowledged := false, lastAttempt := 0 }) ∈
      (cleanupAcknowledgedMessages 1000000 fxStoreFullLoss).pendingMessages :=
  ((cleanup_retention_characterization 1000000 fxStoreFullLoss).1 _).mpr
    ⟨by decide, Or.inl rfl⟩

-- ============================================
-- C7: the relay's retry scan
-- ============================================

/-- Claim C7: `getPendingForRetry(timeoutMs)` returns exactly the
unacknowledged entries whose age since the stored (re)transmission
timestamp is at least the timeout and whose attempt count is below the
limit; an unacknowledged entry at or over the limit draws a
`message:failed` event on every scan and is excluded from the returned
list, and the scan leaves the pending store untouched. -/
theorem pending_due_for_retry_spec (now ackTimeoutMs : Int)
    (pending : List (String × QueuedMessage)) :
    (∀ m : QueuedMessage,
      m ∈ (getPendingForRetry now ackTimeoutMs pending).toRetry ↔
        ((∃ k, (k, m) ∈ pending) ∧ m.acknowledged = false ∧
          m.attempts < m.maxAttempts ∧ ackTimeoutMs ≤ now - m.timestamp)) ∧
    (∀ k m, (k, m) ∈ pending → m.acknowledged = false → m.maxAttempts ≤ m.attempts →
      ((m.id, "Max attempts reached") ∈
          (getPendingForRetry now ackTimeoutMs pending).failedEvents ∧
        m ∉ (getPendingForRetry now ackTimeoutMs pending).toRetry)) ∧
    (getPendingForRetry now ackTimeoutMs pending).store = pending := by
  have hchar : ∀ m : QueuedMessage,
      m ∈ (getPendingForRetry now ackTimeoutMs pending).toRetry ↔
        ((∃ k, (k, m) ∈ pending) ∧ m.acknowledged = false ∧
          m.attempts < m.maxAttempts ∧ ackTimeoutMs ≤ now - m.timestamp) := by
    intro m
    simp only [getPendingForRetry, List.mem_filterMap]
    constructor
    · rintro ⟨e, he, hfe⟩
      by_cases h1 : e.2.acknowledged = true
      · simp [h1] at hfe
      · by_cases h2 : e.2.maxAttempts ≤ e.2.attempts
        · simp [h1, h2] at hfe
        · by_cases h3 : ackTimeoutMs ≤ now - e.2.timestamp
          · rw [if_neg h1, if_neg h2, if_pos h3] at hfe
            have hem : e.2 = m := Option.some.inj hfe
            subst hem
            exact ⟨⟨e.1, he⟩, by simpa using h1, Nat.not_le.mp h2, h3⟩
          · rw [if_neg h1, if_neg h2, if_neg h3] at hfe
            exact absurd hfe (by simp)
    · rintro ⟨⟨k, hk⟩, hack, hatt, htime⟩
      refine ⟨(k, m), hk, ?_⟩
      rw [if_neg (by simp [hack]), if_neg (Nat.not_le.mpr hatt), if_pos htime]
  refine ⟨hchar, ?_, rfl⟩
  intro k m hm hack hmax
  constructor
  · simp only [getPendingForRetry, List.mem_filterMap]
    refine ⟨(k, m), hm, ?_⟩
    rw [if_neg (by simp [hack]), if_pos hmax]
  · intro hmem
    exact absurd ((hchar m).mp hmem).2.2.1 (Nat.not_lt.mpr hmax)

theorem pending_due_for_retry_spec_witness :
    fxQueuedDue ∈ (getPendingForRetry 1000 300 fxQueuedStore).toRetry ∧
    (fxQueuedMaxed.id, "Max attempts reached") ∈
      (getPendingForRetry 1000 300 fxQueuedStore).failedEvents :=
  ⟨((pending_due_for_retry_spec 1000 300 fxQueuedStore).1 fxQueuedDue).mpr
      ⟨⟨"Q1", by decide⟩, rfl, by decide, by decide⟩,
   ((pending_due_for_retry_spec 1000 300 fxQueuedStore).2.1 "Q2" fxQueuedMaxed (by decide) rfl
      (by decide)).1⟩

-- ============================================
-- Helper lemmas: the retry loop
-- ============================================

theorem applyRetry_message_id (chaos : ChaosConfig) (now : Int) (roll : String → ℚ)
    (k : String) (p : PendingMessage) :
    (applyRetryAction now p (retryAction chaos now roll k p)).message.id = p.message.id := by
  unfold retryAction
  split_ifs <;> simp [applyRetryAction]

theorem retryAction_retransmit_inv {chaos : ChaosConfig} {now : Int} {roll : String → ℚ}
    {k : String} {p : PendingMessage} {m : ReliableMessage}
    (hra : retryAction chaos now roll k p = RetryAction.retransmit m) :
    p.acknowledged = false ∧ p.message.attempts < MAX_RETRY_ATTEMPTS ∧
      m = { p.message with attempts := p.message.attempts + 1, timestamp := now } := by
  unfold retryAction at hra
  split_ifs at hra with h1 h2 h3 h4
  exact ⟨by simpa using h1, Nat.not_le.mp h3, (RetryAction.retransmit.inj hra).symm⟩

theorem applyRetry_message_of_maxed (chaos : ChaosConfig) (now : Int) (roll : String → ℚ)
    (k : String) (p : PendingMessage) (hmax : MAX_RETRY_ATTEMPTS ≤ p.message.attempts) :
    (applyRetryAction now p (retryAction chaos now roll k p)).message = p.message := by
  unfold retryAction
  split_ifs <;> rfl

theorem mem_retrySent {chaos : ChaosConfig} {now : Int} {roll : String → ℚ}
    {pending : List (String × PendingMessage)} {m : ReliableMessage}
    (hm : m ∈ retrySent chaos now roll pending) :
    ∃ e ∈ pending, retryAction chaos now roll e.1 e.2 = RetryAction.retransmit m := by
  obtain ⟨e, he, hfe⟩ := List.mem_filterMap.mp hm
  refine ⟨e, he, ?_⟩
  cases hra : retryAction chaos now roll e.1 e.2 <;> rw [hra] at hfe <;> simp at hfe
  rw [hfe]

theorem keys_retry (now : Int) (roll : String → ℚ) (s : NexusStore) :
    (retryPendingMessages now roll s).store.pendingMessages.map Prod.fst =
      s.pendingMessages.map Prod.fst := by
  show ((s.pendingMessages.map (fun e =>
      (e.1, applyRetryAction now e.2 (retryAction s.chaosConfig now roll e.1 e.2)))).map
      Prod.fst) = s.pendingMessages.map Prod.fst
  rw [List.map_map]
  rfl

theorem mapGet_retry (now : Int) (roll : String → ℚ) (s : NexusStore) (k : String) :
    mapGet (retryPendingMessages now roll s).store.pendingMessages k =
      (mapGet s.pendingMessages k).map
        (fun p => applyRetryAction now p (retryAction s.chaosConfig now roll k p)) := by
  show mapGet (s.pendingMessages.map (fun e =>
      (e.1, applyRetryAction now e.2 (retryAction s.chaosConfig now roll e.1 e.2)))) k = _
  exact mapGet_map (fun k2 v => applyRetryAction now v (retryAction s.chaosConfig now roll k2 v))
    s.pendingMessages k

theorem wellKeyed_retry (now : Int) (roll : String → ℚ) (s : NexusStore)
    (hwk : ∀ e ∈ s.pendingMessages, e.2.message.id = e.1) :
    ∀ e ∈ (retryPendingMessages now roll s).store.pendingMessages, e.2.message.id = e.1 := by
  intro e' he'
  have hmem : e' ∈ s.pendingMessages.map (fun e =>
      (e.1, applyRetryAction now e.2 (retryAction s.chaosConfig now roll e.1 e.2))) := he'
  obtain ⟨e, he, rfl⟩ := List.mem_map.mp hmem
  show (applyRetryAction now e.2 (retryAction s.chaosConfig now roll e.1 e.2)).message.id = e.1
  rw [applyRetry_message_id]
  exact hwk e he

/-- A pending entry whose envelope has reached the attempt limit is never in
the tick's transmitted list, stays (only possibly force-acknowledged) in the
ledger with its message intact, and store well-formedness is preserved. -/
theorem retry_tick_maxed_step (now : Int) (roll : String → ℚ) (s : NexusStore)
    (msgId : String) (q : PendingMessage)
    (hwk : ∀ e ∈ s.pendingMessages, e.2.message.id = e.1)
    (hnd : (s.pendingMessages.map Prod.fst).Nodup)
    (hq : mapGet s.pendingMessages msgId = some q)
    (hmax : MAX_RETRY_ATTEMPTS ≤ q.message.attempts) :
    (∀ m ∈ (retryPendingMessages now roll s).sent, m.id ≠ msgId) ∧
    mapGet (retryPendingMessages now roll s).store.pendingMessages msgId =
      some (applyRetryAction now q (retryAction s.chaosConfig now roll msgId q)) ∧
    (applyRetryAction now q (retryAction s.chaosConfig now roll msgId q)).message = q.message ∧
    (∀ e ∈ (retryPendingMessages now roll s).store.pendingMessages, e.2.message.id = e.1) ∧
    ((retryPendingMessages now roll s).store.pendingMessages.map Prod.fst).Nodup := by
  refine ⟨?_, ?_, applyRetry_message_of_maxed _ _ _ _ _ hmax,
    wellKeyed_retry now roll s hwk, ?_⟩
  · intro m hm hid
    obtain ⟨e, he, hre⟩ := mem_retrySent hm
    obtain ⟨k, v⟩ := e
    obtain ⟨hack, hlt, hmeq⟩ := retryAction_retransmit_inv hre
    have hkid : v.message.id = k := hwk (k, v) he
    have hmid : m.id = k := by rw [hmeq]; exact hkid
    have hk : k = msgId := by rw [← hmid]; exact hid
    subst hk
    have hvq : v = q := nodup_keys_unique hnd he (mem_of_mapGet_eq_some hq)
    rw [hvq] at hlt
    exact absurd hmax (Nat.not_le.mpr hlt)
  · rw [mapGet_retry, hq]
    rfl
  · rw [keys_retry]
    exact hnd

theorem runRetry_maxed (msgId : String) (M : ReliableMessage)
    (hmax : MAX_RETRY_ATTEMPTS ≤ M.attempts) (ticks : List (Int × (String → ℚ))) :
    ∀ (s : NexusStore) (q : PendingMessage),
      (∀ e ∈ s.pendingMessages, e.2.message.id = e.1) →
      (s.pendingMessages.map Prod.fst).Nodup →
      mapGet s.pendingMessages msgId = some q → q.message = M →
      (∀ m ∈ (runRetryTicks ticks s).2, m.id ≠ msgId) ∧
      ∃ q2, mapGet (runRetryTicks ticks s).1.pendingMessages msgId = some q2 ∧
        q2.message = M := by
  induction ticks with
  | nil =>
    intro s q hwk hnd hq hqM
    exact ⟨fun m hm => absurd hm (List.not_mem_nil m), ⟨q, hq, hqM⟩⟩
  | cons tk rest ih =>
    intro s q hwk hnd hq hqM
    have hmaxq : MAX_RETRY_ATTEMPTS ≤ q.message.attempts := by rw [hqM]; exact hmax
    obtain ⟨hsent, hget, hmsg, hwk2, hnd2⟩ :=
      retry_tick_maxed_step tk.1 tk.2 s msgId q hwk hnd hq hmaxq
    obtain ⟨ih1, q2, ihget, ihM⟩ :=
      ih (retryPendingMessages tk.1 tk.2 s).store _ hwk2 hnd2 hget (by rw [hmsg, hqM])
    refine ⟨?_, ⟨q2, ihget, ihM⟩⟩
    intro m hm
    have hm2 : m ∈ (retryPendingMessages tk.1 tk.2 s).sent ++
        (runRetryTicks rest (retryPendingMessages tk.1 tk.2 s).store).2 := hm
    rcases List.mem_append.mp hm2 with h | h
    · exact hsent m h
    · exact ih1 m h

-- ============================================
-- C3: the retry cap
-- ============================================

/-- Claim C3: a PendingEntry whose envelope `attempts` has reached
`MAX_RETRY_ATTEMPTS` is closed, not retransmitted: on a tick where it is
unacknowledged and due, the retry loop marks it `acknowledged = true`
without transmitting anything for it; and across any sequence of retry
ticks nothing with its id is ever transmitted. -/
theorem retry_cap_closes_without_retransmission (s : NexusStore) (msgId : String)
    (p : PendingMessage)
    (hwk : ∀ e ∈ s.pendingMessages, e.2.message.id = e.1)
    (hnd : (s.pendingMessages.map Prod.fst).Nodup)
    (hp : mapGet s.pendingMessages msgId = some p)
    (hmax : MAX_RETRY_ATTEMPTS ≤ p.message.attempts) :
    (∀ now roll, p.acknowledged = false → ACK_TIMEOUT_MS ≤ now - p.lastAttempt →
      mapGet (retryPendingMessages now roll s).store.pendingMessages msgId =
        some { p with acknowledged := true } ∧
      ∀ m ∈ (retryPendingMessages now roll s).sent, m.id ≠ msgId) ∧
    (∀ ticks, ∀ m ∈ (runRetryTicks ticks s).2, m.id ≠ msgId) := by
  constructor
  · intro now roll hack hdue
    obtain ⟨hsent, hget, hmsg, _, _⟩ := retry_tick_maxed_step now roll s msgId p hwk hnd hp hmax
    refine ⟨?_, hsent⟩
    rw [hget]
    have hga : retryAction s.chaosConfig now roll msgId p = RetryAction.giveUp := by
      unfold retryAction
      rw [if_neg (by simp [hack]), if_neg (not_lt.mpr hdue), if_pos hmax]
    rw [hga]
    rfl
  · intro ticks
    exact (runRetry_maxed msgId p.message hmax ticks s p hwk hnd hp rfl).1

theorem retry_cap_closes_without_retransmission_witness :
    mapGet (retryPendingMessages 300 fxZeroRoll fxStoreMaxed).store.pendingMessages "M" =
      some { message := fxMsgMaxed, acknowledged := true, lastAttempt := 0 } :=
  ((retry_cap_closes_without_retransmission fxStoreMaxed "M"
      { message := fxMsgMaxed, acknowledged := false, lastAttempt := 0 }
      (by decide) (by decide) (by decide) (by decide)).1 300 fxZeroRoll rfl (by decide)).1

-- ============================================
-- Helper lemmas: full packet loss
-- ============================================

theorem retryAction_not_retransmit_full_loss {chaos : ChaosConfig} {now : Int}
    {roll : String → ℚ} {k : String} {p : PendingMessage}
    (hrate : chaos.packetLossRate = 1) (hroll : roll k < 1) (m : ReliableMessage) :
    retryAction chaos now roll k p ≠ RetryAction.retransmit m := by
  unfold retryAction
  split_ifs with h1 h2 h3 h4 <;> simp
  exact absurd ⟨by rw [hrate]; norm_num, by rw [hrate]; exact hroll⟩ h4

theorem retrySent_full_loss {chaos : ChaosConfig} {now : Int} {roll : String → ℚ}
    {pending : List (String × PendingMessage)}
    (hrate : chaos.packetLossRate = 1) (hroll : ∀ k, roll k < 1) :
    retrySent chaos now roll pending = [] := by
  rw [retrySent, List.filterMap_eq_nil_iff]
  intro e he
  cases hra : retryAction chaos now roll e.1 e.2
  case retransmit m =>
    exact absurd hra (retryAction_not_retransmit_full_loss hrate (hroll e.1) m)
  all_goals rfl

theorem applyRetry_preserve_full_loss {chaos : ChaosConfig} {now : Int} {roll : String → ℚ}
    {k : String} {p : PendingMessage}
    (hrate : chaos.packetLossRate = 1) (hroll : roll k < 1)
    (hlt : p.message.attempts < MAX_RETRY_ATTEMPTS) :
    (applyRetryAction now p (retryAction chaos now roll k p)).message = p.message ∧
    (applyRetryAction now p (retryAction chaos now roll k p)).acknowledged = p.acknowledged := by
  unfold retryAction
  split_ifs with h1 h2 h3 h4 <;>
    first
      | exact ⟨rfl, rfl⟩
      | exact absurd h3 (Nat.not_le.mpr hlt)
      | exact absurd ⟨by rw [hrate]; norm_num, by rw [hrate]; exact hroll⟩ h4

/-- One retry tick under a loss rate of 1: nothing is transmitted, the
`retries` metric does not move, the chaos configuration is untouched, and
every entry below the attempt limit keeps its message (attempt count
included) and its acknowledgment flag. -/
theorem retry_tick_full_loss (now : Int) (roll : String → ℚ) (s : NexusStore)
    (hrate : s.chaosConfig.packetLossRate = 1) (hroll : ∀ k, roll k < 1) :
    (retryPendingMessages now roll s).sent = [] ∧
    (retryPendingMessages now roll s).store.metrics.retries = s.metrics.retries ∧
    (retryPendingMessages now roll s).store.chaosConfig = s.chaosConfig ∧
    ∀ msgId p, mapGet s.pendingMessages msgId = some p →
      p.message.attempts < MAX_RETRY_ATTEMPTS →
      ∃ q, mapGet (retryPendingMessages now roll s).store.pendingMessages msgId = some q ∧
        q.message = p.message ∧ q.acknowledged = p.acknowledged := by
  have hsent : retrySent s.chaosConfig now roll s.pendingMessages = [] :=
    retrySent_full_loss hrate hroll
  refine ⟨hsent, ?_, rfl, ?_⟩
  · show s.metrics.retries + (retrySent s.chaosConfig now roll s.pendingMessages).length =
      s.metrics.retries
    rw [hsent]
    rfl
  · intro msgId p hp hlt
    refine ⟨applyRetryAction now p (retryAction s.chaosConfig now roll msgId p), ?_,
      (applyRetry_preserve_full_loss hrate (hroll msgId) hlt).1,
      (applyRetry_preserve_full_loss hrate (hroll msgId) hlt).2⟩
    rw [mapGet_retry, hp]
    rfl

-- ============================================
-- C2: scenario B (drop probability 1.0)
-- ============================================

/-- Claim C2 counterexample: starting from the scenario-B state (pending
STATE_CHANGE "X" with `attempts = 0`, drop probability 1.0), after
`attemptLimit` = 5 due retry ticks the entry is still NOT acknowledged (it
never gave up, its attempt count never moved), the `retries` metric is 0 —
not `attemptLimit - 1` = 4 — and nothing was ever transmitted, so the
receiving peer saw nothing. -/
theorem scenarioB_full_loss_counterexample :
    (mapGet (runRetryTicks fxTicks5 fxStoreFullLoss).1.pendingMessages "X").map
      PendingMessage.acknowledged = some false ∧
    (mapGet (runRetryTicks fxTicks5 fxStoreFullLoss).1.pendingMessages "X").map
      (fun p => p.message.attempts) = some 0 ∧
    (runRetryTicks fxTicks5 fxStoreFullLoss).1.metrics.retries = 0 ∧
    (runRetryTicks fxTicks5 fxStoreFullLoss).1.metrics.retries ≠ MAX_RETRY_ATTEMPTS - 1 ∧
    (runRetryTicks fxTicks5 fxStoreFullLoss).2 = [] := by
  refine ⟨by decide, by decide, by decide, by decide, by decide⟩

/-- Claim C2 (amended): with drop probability fixed at 1.0 (and real rolls,
all below 1), every retry tick takes the chaos-drop branch for every due
entry: across any sequence of retry ticks nothing is ever transmitted (so
the receiving peer's entity state cannot change), the `retries` metric
stays at its initial value, and every pending entry below the attempt limit
keeps its message — attempt count included — and is never marked
acknowledged; the give-up transition is unreachable because dropped retries
do not count as attempts. -/
theorem full_loss_no_progress (s : NexusStore) (ticks : List (Int × (String → ℚ)))
    (hrate : s.chaosConfig.packetLossRate = 1)
    (hroll : ∀ tk ∈ ticks, ∀ k, tk.2 k < 1) :
    (runRetryTicks ticks s).2 = [] ∧
    (runRetryTicks ticks s).1.metrics.retries = s.metrics.retries ∧
    ∀ msgId p, mapGet s.pendingMessages msgId = some p →
      p.message.attempts < MAX_RETRY_ATTEMPTS →
      ∃ q, mapGet (runRetryTicks ticks s).1.pendingMessages msgId = some q ∧
        q.message = p.message ∧ q.acknowledged = p.acknowledged := by
  induction ticks generalizing s with
  | nil => exact ⟨rfl, rfl, fun msgId p hp _ => ⟨p, hp, rfl, rfl⟩⟩
  | cons tk rest ih =>
    have hroll1 : ∀ k, tk.2 k < 1 := hroll tk (List.mem_cons_self _ _)
    obtain ⟨hs1, hm1, hc1, hpres1⟩ := retry_tick_full_loss tk.1 tk.2 s hrate hroll1
    have hrate2 : (retryPendingMessages tk.1 tk.2 s).store.chaosConfig.packetLossRate = 1 := by
      rw [hc1]
      exact hrate
    have hroll2 : ∀ tk2 ∈ rest, ∀ k, tk2.2 k < 1 :=
      fun tk2 h2 => hroll tk2 (List.mem_cons_of_mem _ h2)
    obtain ⟨ih1, ih2, ih3⟩ := ih (retryPendingMessages tk.1 tk.2 s).store hrate2 hroll2
    refine ⟨?_, ?_, ?_⟩
    · show (retryPendingMessages tk.1 tk.2 s).sent ++
        (runRetryTicks rest (retryPendingMessages tk.1 tk.2 s).store).2 = []
      rw [hs1, ih1]
      rfl
    · show (runRetryTicks rest (retryPendingMessages tk.1 tk.2 s).store).1.metrics.retries =
        s.metrics.retries
      rw [ih2, hm1]
    · intro msgId p hp hlt
      obtain ⟨q1, hq1, hq1m, hq1a⟩ := hpres1 msgId p hp hlt
      obtain ⟨q, hq, hqm, hqa⟩ := ih3 msgId q1 hq1 (by rw [hq1m]; exact hlt)
      exact ⟨q, hq, by rw [hqm, hq1m], by rw [hqa, hq1a]⟩

theorem full_loss_no_progress_witness :
    (runRetryTicks fxTicks5 fxStoreFullLoss).2 = [] :=
  (full_loss_no_progress fxStoreFullLoss fxTicks5 rfl
    (by
      intro tk htk k
      simp only [fxTicks5, List.mem_cons, List.not_mem_nil, or_false] at htk
      rcases htk with h | h | h | h | h <;> rw [h] <;> norm_num [fxZeroRoll])).1
